import Mathlib

/-!
Verification of the scheduling / conversion-reporting backend.

The definitions below are a shallow embedding of the JavaScript source:

* `src/server.js` — slot availability (`timeToMinutes`, `isTimeSlotFree`,
  `filterAvailableSlots`), the `/api/available-slots` handler (per-unit
  upstream calls, merge and sort), and the `/api/book-session` handler
  (validation, pre-check, client creation, bounded retry loop).
* `src/backend/controllers/conversionsController.js` — the in-process
  event-record list mutated by the single-event and batch send paths and
  read by the status query.
* `src/backend/utils/facebookApi.js` — the email/phone hashing helpers.

Modelling conventions:

* Clock times arrive from upstream as zero-padded `"HH:MM"` strings; they
  are represented structurally as hour/minute pairs (`HM`), with
  `timeToMinutes` translated from the source arithmetic.
* JavaScript objects holding upstream JSON are represented as structures
  with `Option` fields (`none` = absent field); association lists stand for
  objects keyed by date strings.
* A remote call either resolves to a parsed JSON-RPC response (which may
  carry an `error` member) or rejects (network/parse failure); this is
  `Except String (RpcResp α)`, with `Except.error` the rejected case.
* Wall-clock timestamps, logging and the weekday computation from a date
  string are irrelevant to the claims; the weekday function is passed as a
  parameter where the source derives it from `new Date(date)`.
* The SHA-256 digest function is passed as an abstract `String → String`
  parameter; the claims only concern which string gets digested.
-/

/-- A clock time, the structural form of a zero-padded `"HH:MM"` string. -/
structure HM where
  h : Nat
  m : Nat
deriving DecidableEq, Repr

/-- Embeds `timeToMinutes` from `src/server.js`: `hours * 60 + minutes`. -/
def timeToMinutes (t : HM) : Nat :=
  t.h * 60 + t.m

/-- A reserved or not-worked interval `{from, to}` as reported upstream. -/
structure ResInterval where
  fromTime : HM
  toTime : HM
deriving DecidableEq, Repr

/-- One interval group of a date's reserved-interval list.  Either member
array may be absent (`Array.isArray` fails on it in the source). -/
structure IntervalGroup where
  reserved_time : Option (List ResInterval)
  not_worked_time : Option (List ResInterval)
deriving DecidableEq, Repr

/-- Strict-overlap test of one interval against the slot, from the body of
the loops in `isTimeSlotFree`: `slotMinutes < reservedEnd && reservedStart <
slotEndMinutes`. -/
def intervalConflicts (slotMinutes slotEndMinutes : Nat) (iv : ResInterval) : Bool :=
  decide (slotMinutes < timeToMinutes iv.toTime) &&
    decide (timeToMinutes iv.fromTime < slotEndMinutes)

/-- Embeds `isTimeSlotFree` from `src/server.js`: the slot is free unless
some `reserved_time` or `not_worked_time` entry of some group passes the
strict overlap test.  The source returns `false` at the first conflict,
which coincides with the negated existential. -/
def isTimeSlotFree (timeSlot : HM) (reservedIntervals : List IntervalGroup)
    (serviceDuration : Nat := 55) : Bool :=
  let slotMinutes := timeToMinutes timeSlot
  let slotEndMinutes := slotMinutes + serviceDuration
  !(reservedIntervals.any fun g =>
    (g.reserved_time.getD []).any (intervalConflicts slotMinutes slotEndMinutes) ||
      (g.not_worked_time.getD []).any (intervalConflicts slotMinutes slotEndMinutes))

/-- All reserved and not-worked entries of a date's group list, the
intervals `isTimeSlotFree` inspects. -/
def allIntervals (reservedIntervals : List IntervalGroup) : List ResInterval :=
  reservedIntervals.flatMap fun g =>
    g.reserved_time.getD [] ++ g.not_worked_time.getD []

/-- C1: the slot-availability check returns false if and only if some
reserved or not-worked interval `R` satisfies the strict overlap test
`S.start < R.end && R.start < S.end`; consequently a slot ending exactly at
`R.start`, or starting exactly at `R.end`, is not in conflict with `R`. -/
theorem isTimeSlotFree_eq_false_iff (timeSlot : HM)
    (reservedIntervals : List IntervalGroup) (serviceDuration : Nat) :
    isTimeSlotFree timeSlot reservedIntervals serviceDuration = false ↔
      ∃ iv ∈ allIntervals reservedIntervals,
        timeToMinutes timeSlot < timeToMinutes iv.toTime ∧
          timeToMinutes iv.fromTime < timeToMinutes timeSlot + serviceDuration := by
  simp only [isTimeSlotFree, allIntervals, Bool.not_eq_false', List.any_eq_true,
    Bool.or_eq_true, List.mem_flatMap, List.mem_append, intervalConflicts,
    Bool.and_eq_true, decide_eq_true_eq]
  constructor
  · rintro ⟨g, hg, ⟨iv, hiv, h1, h2⟩ | ⟨iv, hiv, h1, h2⟩⟩
    · exact ⟨iv, ⟨g, hg, Or.inl hiv⟩, h1, h2⟩
    · exact ⟨iv, ⟨g, hg, Or.inr hiv⟩, h1, h2⟩
  · rintro ⟨iv, ⟨g, hg, hiv | hiv⟩, h1, h2⟩
    · exact ⟨g, hg, Or.inl ⟨iv, hiv, h1, h2⟩⟩
    · exact ⟨g, hg, Or.inr ⟨iv, hiv, h1, h2⟩⟩

/-- Working-hours policy from `config.workingHours`: allowed weekday names
and a decimal-hours window.  The source compares the slot's start as
`hour + minute/60` against `start`/`end`; rationals model those numbers. -/
structure WorkingHours where
  days : List String
  start : ℚ
  endH : ℚ
deriving DecidableEq, Repr

/-- A slot as produced by `filterAvailableSlots`: `{start_time, available: true}`. -/
structure FilterSlot where
  start_time : String
  available : Bool
deriving DecidableEq, Repr

/-- Zero-padded decimal rendering of an hour or minute field. -/
def pad2 (n : Nat) : String :=
  if n < 10 then "0" ++ toString n else toString n

/-- Rendering of a clock time back to its upstream `"HH:MM"` string form. -/
def timeString (t : HM) : String :=
  pad2 t.h ++ ":" ++ pad2 t.m

/-- The slot's start as decimal hours, from `timeHour + (timeMinute / 60)`. -/
def slotTimeQ (t : HM) : ℚ :=
  (t.h : ℚ) + (t.m : ℚ) / 60

/-- Lookup in an association list standing for a JS object keyed by date. -/
def lookupD {α : Type} (m : List (String × α)) (d : String) : Option α :=
  (m.find? fun p => p.1 == d).map fun p => p.2

/-- Embeds `filterAvailableSlots` from `src/server.js`.  Per date of the
time matrix: skip the date when its weekday is not a working day; otherwise
keep each start time whose decimal-hours value lies in
`[workingHours.start, workingHours.end)` and which `isTimeSlotFree` accepts
against that date's reserved groups.  The weekday computation from
`new Date(date)` is abstracted as the `dayOfWeek` parameter. -/
def filterAvailableSlots (timeMatrix : List (String × List HM))
    (reservedIntervals : List (String × List IntervalGroup))
    (workingHours : WorkingHours) (serviceDuration : Nat)
    (dayOfWeek : String → String) : List FilterSlot :=
  timeMatrix.flatMap fun dateTimes =>
    let date := dateTimes.1
    if workingHours.days.contains (dayOfWeek date) then
      let dayReserved := (lookupD reservedIntervals date).getD []
      dateTimes.2.filterMap fun time =>
        if workingHours.start ≤ slotTimeQ time ∧ slotTimeQ time < workingHours.endH then
          if isTimeSlotFree time dayReserved serviceDuration then
            some { start_time := date ++ " " ++ timeString time, available := true }
          else none
        else none
    else []

/-- The working-hours window of the C2 scenario: 16:00 to 18:00. -/
def whC2 : WorkingHours :=
  { days := ["Monday"], start := 16, endH := 18 }

/-- C2 as stated is false: with working hours 16:00–18:00 and duration 55
and no reserved data, the filter accepts the slot starting 17:30 (it tests
only the start clock-time, 17.5 < 18, never the slot end 18:25), so the
output contains both 16:00 and 17:30. -/
theorem filterAvailableSlots_admits_1730 :
    filterAvailableSlots [("2025-01-06", [⟨16, 0⟩, ⟨17, 30⟩])] [] whC2 55
        (fun _ => "Monday") =
      [{ start_time := "2025-01-06 16:00", available := true },
        { start_time := "2025-01-06 17:30", available := true }] := by
  norm_num [filterAvailableSlots, whC2, slotTimeQ, isTimeSlotFree, lookupD,
    timeString, pad2, List.filterMap_cons]
  decide

/-- C2 amended: the window test uses only the slot's start clock-time,
accepting a slot exactly when its start lies in `[start, end)`; with
working hours 16:00–18:00 and duration 55 the filter accepts 16:00 and also
17:30 (even though that slot would end at 18:25), while 18:00 is rejected
because its start is not below the window end. -/
theorem filterAvailableSlots_window_start_only :
    filterAvailableSlots [("2025-01-06", [⟨16, 0⟩, ⟨17, 30⟩, ⟨18, 0⟩])] [] whC2 55
        (fun _ => "Monday") =
      [{ start_time := "2025-01-06 16:00", available := true },
        { start_time := "2025-01-06 17:30", available := true }] := by
  norm_num [filterAvailableSlots, whC2, slotTimeQ, isTimeSlotFree, lookupD,
    timeString, pad2, List.filterMap_cons]
  decide

/-- A tagged availability slot after the handler adds `unit_id` and
`coach_name` to each filtered slot. -/
structure Slot where
  start_time : String
  available : Bool
  unit_id : Nat
  coach_name : String
deriving DecidableEq, Repr

/-- Tagging step of the handler: `slot.unit_id = unitId; slot.coach_name =
coachName` over every slot of one unit's filter output. -/
def tagSlots (unitId : Nat) (coachName : String) (slots : List FilterSlot) : List Slot :=
  slots.map fun s =>
    { start_time := s.start_time, available := s.available
      unit_id := unitId, coach_name := coachName }

/-- Model of `localeCompare` on the pre-formatted zero-padded date and time
strings: ordinary lexicographic string comparison. -/
def jsCompare (a b : String) : Ordering :=
  if a < b then .lt else if a = b then .eq else .gt

/-- The `(date, time)` pair `start_time.split(' ')` destructures into. -/
def slotKey (s : Slot) : String × String :=
  match s.start_time.splitOn " " with
  | d :: t :: _ => (d, t)
  | [d] => (d, "")
  | [] => ("", "")

/-- Embeds the sort comparator of the `/api/available-slots` handler:
compare date strings first, then time strings. -/
def compareSlots (a b : Slot) : Ordering :=
  if (slotKey a).1 ≠ (slotKey b).1 then jsCompare (slotKey a).1 (slotKey b).1
  else jsCompare (slotKey a).2 (slotKey b).2

/-- Non-strict order induced by the comparator (comparator result not
positive). -/
def slotLE (a b : Slot) : Bool :=
  decide (compareSlots a b ≠ Ordering.gt)

/-- Insert an element after every already-placed element that is `le` it;
used to realise a stable sort. -/
def insertStable {α : Type} (le : α → α → Bool) (x : α) : List α → List α
  | [] => [x]
  | y :: ys => if le y x then y :: insertStable le x ys else x :: y :: ys

/-- Stable sort by left-to-right insertion.  ECMAScript requires
`Array.prototype.sort` to be stable, and for a comparator induced by a
total preorder the stable result is unique, so this function is an exact
model of the handler's `allAvailableSlots.sort(...)`. -/
def sortStable {α : Type} (le : α → α → Bool) (l : List α) : List α :=
  l.foldl (fun acc x => insertStable le x acc) []

/-- Merge step plus sort of the `/api/available-slots` handler: the
per-unit slot lists are appended in unit order and then sorted. -/
def mergeAndSortSlots (perUnit : List (List Slot)) : List Slot :=
  sortStable slotLE perUnit.flatten

theorem insertStable_perm {α : Type} (le : α → α → Bool) (x : α) (l : List α) :
    List.Perm (insertStable le x l) (x :: l) := by
  induction l with
  | nil => simp [insertStable]
  | cons y ys ih =>
    by_cases h : le y x = true
    · simp only [insertStable, if_pos h]
      exact List.Perm.trans (List.Perm.cons y ih) (List.Perm.swap x y ys)
    · simp only [insertStable, if_neg h]
      exact List.Perm.refl _

theorem mem_insertStable {α : Type} (le : α → α → Bool) (x z : α) (l : List α) :
    z ∈ insertStable le x l ↔ z = x ∨ z ∈ l := by
  rw [(insertStable_perm le x l).mem_iff, List.mem_cons]

theorem pairwise_insertStable {α : Type} (le : α → α → Bool)
    (htot : ∀ a b, le a b = false → le b a = true)
    (htrans : ∀ a b c, le a b = true → le b c = true → le a c = true)
    (x : α) : ∀ l : List α, l.Pairwise (fun a b => le a b = true) →
      (insertStable le x l).Pairwise (fun a b => le a b = true) := by
  intro l
  induction l with
  | nil => intro _; simp [insertStable]
  | cons y ys ih =>
    intro hl
    rcases List.pairwise_cons.mp hl with ⟨hy, hys⟩
    by_cases h : le y x = true
    · simp only [insertStable, if_pos h]
      refine List.pairwise_cons.mpr ⟨?_, ih hys⟩
      intro z hz
      rcases (mem_insertStable le x z ys).mp hz with hzx | hz'
      · rw [hzx]; exact h
      · exact hy z hz'
    · simp only [insertStable, if_neg h]
      refine List.pairwise_cons.mpr ⟨?_, hl⟩
      intro z hz
      rcases List.mem_cons.mp hz with hzy | hz'
      · rw [hzy]; exact htot y x (by simpa using h)
      · exact htrans x y z (htot y x (by simpa using h)) (hy z hz')

theorem filter_insertStable {α : Type} (le : α → α → Bool) (p : α → Bool)
    (hpe : ∀ a b, p a = true → p b = true → le a b = true)
    (htrans : ∀ a b c, le a b = true → le b c = true → le a c = true)
    (x : α) : ∀ l : List α, l.Pairwise (fun a b => le a b = true) →
      (insertStable le x l).filter p =
        l.filter p ++ (if p x then [x] else []) := by
  intro l
  induction l with
  | nil =>
    intro _
    cases hpx : p x <;> simp [insertStable, List.filter_cons, hpx]
  | cons y ys ih =>
    intro hl
    rcases List.pairwise_cons.mp hl with ⟨hy, hys⟩
    by_cases h : le y x = true
    · rw [insertStable, if_pos h, List.filter_cons, List.filter_cons, ih hys]
      cases hpy : p y <;> simp [hpy]
    · rw [insertStable, if_neg h]
      cases hpx : p x with
      | false => simp [List.filter_cons, hpx]
      | true =>
        have hnone : ∀ z ∈ y :: ys, p z = false := by
          intro z hz
          cases hpz : p z with
          | false => rfl
          | true =>
            exfalso
            rcases List.mem_cons.mp hz with hzy | hz'
            · exact h (hpe y x (hzy ▸ hpz) hpx)
            · exact h (htrans y z x (hy z hz') (hpe z x hpz hpx))
        have hfilter : (y :: ys).filter p = [] := by
          refine List.filter_eq_nil_iff.mpr ?_
          intro a ha
          simp [hnone a ha]
        simp [List.filter_cons, hpx, hfilter]

theorem sortStable_go_perm {α : Type} (le : α → α → Bool) :
    ∀ (l acc : List α),
      List.Perm (l.foldl (fun a x => insertStable le x a) acc) (acc ++ l) := by
  intro l
  induction l with
  | nil => intro acc; simp
  | cons x l ih =>
    intro acc
    have h1 := ih (insertStable le x acc)
    have h2 : List.Perm (insertStable le x acc ++ l) ((x :: acc) ++ l) :=
      (insertStable_perm le x acc).append_right l
    exact (h1.trans h2).trans List.perm_middle.symm

theorem sortStable_go_pairwise {α : Type} (le : α → α → Bool)
    (htot : ∀ a b, le a b = false → le b a = true)
    (htrans : ∀ a b c, le a b = true → le b c = true → le a c = true) :
    ∀ (l acc : List α), acc.Pairwise (fun a b => le a b = true) →
      (l.foldl (fun a x => insertStable le x a) acc).Pairwise
        (fun a b => le a b = true) := by
  intro l
  induction l with
  | nil => intro acc hacc; simpa using hacc
  | cons x l ih =>
    intro acc hacc
    exact ih (insertStable le x acc) (pairwise_insertStable le htot htrans x acc hacc)

theorem sortStable_go_filter {α : Type} (le : α → α → Bool) (p : α → Bool)
    (htot : ∀ a b, le a b = false → le b a = true)
    (hpe : ∀ a b, p a = true → p b = true → le a b = true)
    (htrans : ∀ a b c, le a b = true → le b c = true → le a c = true) :
    ∀ (l acc : List α), acc.Pairwise (fun a b => le a b = true) →
      (l.foldl (fun a x => insertStable le x a) acc).filter p =
        acc.filter p ++ l.filter p := by
  intro l
  induction l with
  | nil => intro acc _; simp
  | cons x l ih =>
    intro acc hacc
    have h1 := ih (insertStable le x acc)
      (pairwise_insertStable le htot htrans x acc hacc)
    rw [List.foldl_cons, h1, filter_insertStable le p hpe htrans x acc hacc,
      List.append_assoc, List.filter_cons]
    cases hpx : p x <;> simp [hpx]

/-- Inequality of `(date, time)` keys that the handler's comparator
realises: earlier date, or same date and time not later. -/
def lexLE (p q : String × String) : Prop :=
  p.1 < q.1 ∨ (p.1 = q.1 ∧ p.2 ≤ q.2)

theorem jsCompare_ne_gt_iff (a b : String) :
    jsCompare a b ≠ Ordering.gt ↔ a ≤ b := by
  unfold jsCompare
  split_ifs with h1 h2
  · simpa using le_of_lt h1
  · simpa using le_of_eq h2
  · simp only [ne_eq, not_true_eq_false, false_iff]
    intro hab
    exact h2 (le_antisymm hab (le_of_not_lt h1))

theorem slotLE_iff (a b : Slot) :
    slotLE a b = true ↔ lexLE (slotKey a) (slotKey b) := by
  unfold slotLE lexLE compareSlots
  rw [decide_eq_true_eq]
  by_cases hd : (slotKey a).1 = (slotKey b).1
  · rw [if_neg (by simpa using hd), jsCompare_ne_gt_iff]
    constructor
    · intro ht; exact Or.inr ⟨hd, ht⟩
    · rintro (hlt | ⟨_, ht⟩)
      · exact absurd hd (ne_of_lt hlt)
      · exact ht
  · rw [if_pos hd, jsCompare_ne_gt_iff]
    constructor
    · intro hle; exact Or.inl (lt_of_le_of_ne hle hd)
    · rintro (hlt | ⟨heq, _⟩)
      · exact le_of_lt hlt
      · exact absurd heq hd

theorem slotLE_total (a b : Slot) (h : slotLE a b = false) : slotLE b a = true := by
  rw [slotLE_iff]
  have hn : ¬ lexLE (slotKey a) (slotKey b) := by
    rw [← slotLE_iff]; simp [h]
  rw [lexLE] at hn
  push_neg at hn
  rcases lt_trichotomy (slotKey b).1 (slotKey a).1 with hlt | heq | hgt
  · exact Or.inl hlt
  · exact Or.inr ⟨heq, le_of_lt (hn.2 heq.symm)⟩
  · exact absurd hgt hn.1

theorem slotLE_trans (a b c : Slot) (hab : slotLE a b = true)
    (hbc : slotLE b c = true) : slotLE a c = true := by
  rw [slotLE_iff] at hab hbc ⊢
  rcases hab with h1 | ⟨e1, l1⟩
  · rcases hbc with h2 | ⟨e2, _⟩
    · exact Or.inl (lt_trans h1 h2)
    · exact Or.inl (e2 ▸ h1)
  · rcases hbc with h2 | ⟨e2, l2⟩
    · exact Or.inl (e1 ▸ h2)
    · exact Or.inr ⟨e1.trans e2, le_trans l1 l2⟩

theorem slotLE_keyEq (a b : Slot) (h : slotKey a = slotKey b) :
    slotLE a b = true := by
  rw [slotLE_iff]
  exact Or.inr ⟨congrArg Prod.fst h, le_of_eq (congrArg Prod.snd h)⟩

/-- C8: the merged availability result contains every accepted slot of
every unit with its multiplicity (so two units sharing a date/time both
appear), it is sorted by date string then time string, and for each fixed
`(date, time)` key the subsequence of slots with that key equals the one of
the merged input, i.e. ties keep the stable unit input order. -/
theorem mergeAndSortSlots_spec (perUnit : List (List Slot)) :
    (∀ s : Slot, (mergeAndSortSlots perUnit).count s = perUnit.flatten.count s) ∧
      (mergeAndSortSlots perUnit).Pairwise
        (fun a b => lexLE (slotKey a) (slotKey b)) ∧
      ∀ k : String × String,
        (mergeAndSortSlots perUnit).filter (fun s => decide (slotKey s = k)) =
          perUnit.flatten.filter (fun s => decide (slotKey s = k)) := by
  refine ⟨?_, ?_, ?_⟩
  · intro s
    exact (sortStable_go_perm slotLE perUnit.flatten []).count_eq s
  · have h := sortStable_go_pairwise slotLE slotLE_total slotLE_trans
      perUnit.flatten [] List.Pairwise.nil
    exact h.imp fun hab => (slotLE_iff _ _).mp hab
  · intro k
    have h := sortStable_go_filter slotLE (fun s => decide (slotKey s = k))
      slotLE_total
      (fun a b ha hb => slotLE_keyEq a b (by
        rw [decide_eq_true_eq] at ha hb
        rw [ha, hb]))
      slotLE_trans perUnit.flatten [] List.Pairwise.nil
    simpa using h

/-- A parsed JSON-RPC response body: may carry an `error` member (its
message) and a `result` member. -/
structure RpcResp (α : Type) where
  error : Option String
  result : Option α
deriving DecidableEq, Repr

/-- The two upstream calls the availability handler makes per unit.
`Except.error` is a rejected promise (network or parse failure), which the
per-unit `try/catch` turns into `continue`. -/
structure UnitCalls where
  timeMatrix : Except String (RpcResp (List (String × List HM)))
  reserved : Except String (RpcResp (List (String × List IntervalGroup)))

/-- World of one `/api/available-slots` request: outcomes of the token
calls and of each unit's pair of calls. -/
structure AvailWorld where
  publicToken : Except String (RpcResp String)
  adminToken : Except String (RpcResp String)
  unitCalls : Nat → UnitCalls

/-- The hard-coded coach display name: unit 4 is Mason, anything else
renders as Josh. -/
def coachName (unitId : Nat) : String :=
  if unitId = 4 then "Mason" else "Josh"

/-- Per-unit body of the availability loop.  A rejected time-matrix call or
an error in its response skips the unit (`continue`); a rejected
reserved-intervals call skips the unit; but an error RESPONSE of the
reserved-intervals call is not checked by the source — the unit proceeds
with `result || {}`, i.e. empty reserved intervals. -/
def processUnit (wh : WorkingHours) (dur : Nat) (dow : String → String)
    (unitId : Nat) (calls : UnitCalls) : List Slot :=
  match calls.timeMatrix with
  | .error _ => []
  | .ok tmResp =>
    if tmResp.error.isSome then []
    else
      match calls.reserved with
      | .error _ => []
      | .ok resResp =>
        tagSlots unitId (coachName unitId)
          (filterAvailableSlots (tmResp.result.getD []) (resResp.result.getD [])
            wh dur dow)

/-- Response of the availability endpoint: JSON result or an HTTP error. -/
inductive AvailResult where
  | ok (result : List Slot)
  | err (status : Nat) (msg : String)
deriving DecidableEq, Repr

/-- Embeds the `/api/available-slots` handler of `src/server.js`: both
token calls are fatal on failure, each of the allowed units 4 and 10 is
processed with `processUnit`, and the merged list is sorted.  The
diagnostic reserved-times summary loop only logs inside its own
`try/catch` and cannot affect the response, so it is not modelled. -/
def availableSlotsHandler (wh : WorkingHours) (dur : Nat)
    (dow : String → String) (w : AvailWorld) : AvailResult :=
  match w.publicToken with
  | .error e => .err 500 ("Failed to fetch available slots: " ++ e)
  | .ok pub =>
    if pub.error.isSome then .err 500 "Failed to get public access token"
    else
      match w.adminToken with
      | .error e => .err 500 ("Failed to fetch available slots: " ++ e)
      | .ok adm =>
        if adm.error.isSome then .err 500 "Failed to get admin access token"
        else
          .ok (mergeAndSortSlots
            [processUnit wh dur dow 4 (w.unitCalls 4),
              processUnit wh dur dow 10 (w.unitCalls 10)])

/-- A token call that resolved without an error member. -/
def tokenOk (c : Except String (RpcResp String)) : Bool :=
  match c with
  | .ok r => r.error.isNone
  | .error _ => false

/-- The conditions under which the source actually skips a unit: rejected
time-matrix call, error response of the time-matrix call, or rejected
reserved-intervals call. -/
def unitSkipped (c : UnitCalls) : Bool :=
  match c.timeMatrix with
  | .error _ => true
  | .ok r =>
    r.error.isSome ||
      match c.reserved with
      | .error _ => true
      | .ok _ => false

/-- Concrete world of the C4 counterexample: tokens fine; unit 4 has a
valid time matrix with one Monday 16:00 slot but its reserved-intervals
call resolves to an error response; unit 10 reports an empty matrix. -/
def availWorldC4 : AvailWorld :=
  { publicToken := .ok { error := none, result := some "pub" }
    adminToken := .ok { error := none, result := some "adm" }
    unitCalls := fun u =>
      if u = 4 then
        { timeMatrix := .ok
            { error := none, result := some [("2025-01-06", [⟨16, 0⟩])] }
          reserved := .ok { error := some "upstream failure", result := none } }
      else
        { timeMatrix := .ok { error := none, result := some [] }
          reserved := .ok { error := none, result := some [] } } }

/-- C4 as stated is false: in `availWorldC4` the reserved-intervals call
for unit 4 fails (resolves to an error response), yet unit 4 still
contributes its 16:00 slot to the successful response, because the source
never checks `reservedResult.error`. -/
theorem availableSlots_unit_error_still_contributes :
    availableSlotsHandler whC2 55 (fun _ => "Monday") availWorldC4 =
      .ok [{ start_time := "2025-01-06 16:00", available := true,
             unit_id := 4, coach_name := "Mason" }] := by
  norm_num [availableSlotsHandler, availWorldC4, processUnit, tagSlots,
    mergeAndSortSlots, sortStable, insertStable, filterAvailableSlots, whC2,
    slotTimeQ, isTimeSlotFree, lookupD, timeString, pad2, List.filterMap_cons]
  decide

/-- C4 amended: when the time-matrix call for a unit rejects or resolves
with an error, or the reserved-intervals call rejects, that unit
contributes no slots and the request still succeeds (no error in the
response), returning the merged sorted slots of the remaining unit; a
reserved-intervals call that resolves with an error response, however, is
not treated as a failure (the unit is processed with empty reserved
intervals). -/
theorem availableSlots_partial_results (wh : WorkingHours) (dur : Nat)
    (dow : String → String) (w : AvailWorld) (u : Nat)
    (hu : u = 4 ∨ u = 10)
    (hpub : tokenOk w.publicToken = true)
    (hadm : tokenOk w.adminToken = true)
    (hskip : unitSkipped (w.unitCalls u) = true) :
    processUnit wh dur dow u (w.unitCalls u) = [] ∧
      availableSlotsHandler wh dur dow w =
        .ok (mergeAndSortSlots
          [processUnit wh dur dow 4 (w.unitCalls 4),
            processUnit wh dur dow 10 (w.unitCalls 10)]) := by
  constructor
  · unfold processUnit unitSkipped at *
    match h : (w.unitCalls u).timeMatrix with
    | .error e => rfl
    | .ok r =>
      rw [h] at hskip
      simp only at hskip
      rcases Bool.or_eq_true_iff.mp hskip with herr | hres
      · simp [herr]
      · match h2 : (w.unitCalls u).reserved with
        | .error e => simp [h2]
        | .ok r2 => rw [h2] at hres; simp at hres
  · unfold availableSlotsHandler tokenOk at *
    match hp : w.publicToken with
    | .error e => rw [hp] at hpub; simp at hpub
    | .ok pr =>
      rw [hp] at hpub
      simp only at hpub
      match ha : w.adminToken with
      | .error e => rw [ha] at hadm; simp at hadm
      | .ok ar =>
        rw [ha] at hadm
        simp only at hadm
        simp [Option.isNone_iff_eq_none.mp hpub, Option.isNone_iff_eq_none.mp hadm]

/-- Closed instance discharging the hypotheses of
`availableSlots_partial_results`: in `availWorldC4` modified so that unit
4's reserved call rejects, unit 4 is skipped and the request succeeds. -/
theorem availableSlots_partial_results_witness :
    let w : AvailWorld :=
      { publicToken := .ok { error := none, result := some "pub" }
        adminToken := .ok { error := none, result := some "adm" }
        unitCalls := fun u =>
          if u = 4 then
            { timeMatrix := .ok
                { error := none, result := some [("2025-01-06", [⟨16, 0⟩])] }
              reserved := .error "socket hang up" }
          else
            { timeMatrix := .ok { error := none, result := some [] }
              reserved := .ok { error := none, result := some [] } } }
    processUnit whC2 55 (fun _ => "Monday") 4 (w.unitCalls 4) = [] ∧
      availableSlotsHandler whC2 55 (fun _ => "Monday") w =
        .ok (mergeAndSortSlots
          [processUnit whC2 55 (fun _ => "Monday") 4 (w.unitCalls 4),
            processUnit whC2 55 (fun _ => "Monday") 10 (w.unitCalls 10)]) := by
  exact availableSlots_partial_results whC2 55 (fun _ => "Monday") _ 4
    (Or.inl rfl) (by decide) (by decide) (by decide)

/-- One entry of the in-process `recentEvents` list of
`conversionsController.js`. -/
structure EventRecord where
  id : String
  event_name : Option String
  timestamp : String
  status : String
  response : Option String
  error : Option String
  batch : Bool
deriving DecidableEq, Repr

/-- Data of one send request that the controller copies into a record: its
generated id, the request's event name, the ISO timestamp and the response
data or error message text. -/
structure EventData where
  id : String
  event_name : Option String
  timestamp : String
  info : String
deriving DecidableEq, Repr

/-- The record the single-send success path stores. -/
def successRecord (d : EventData) : EventRecord :=
  { id := d.id, event_name := d.event_name, timestamp := d.timestamp
    status := "success", response := some d.info, error := none, batch := false }

/-- The record the single-send failure path stores. -/
def failedRecord (d : EventData) : EventRecord :=
  { id := d.id, event_name := d.event_name, timestamp := d.timestamp
    status := "failed", response := none, error := some d.info, batch := false }

/-- The record the batch path stores for each event of a delivered batch. -/
def batchRecord (d : EventData) : EventRecord :=
  { id := d.id, event_name := d.event_name, timestamp := d.timestamp
    status := "success", response := none, error := none, batch := true }

/-- Embeds the `recentEvents` mutation of `sendConversionEvent`: on
success, `unshift` the record and `pop` the last entry when the length
exceeds 100; on failure, `unshift` the failed record with no trimming. -/
def applySingle (ok : Bool) (d : EventData) (events : List EventRecord) :
    List EventRecord :=
  if ok then
    let es := successRecord d :: events
    if es.length > 100 then es.dropLast else es
  else
    failedRecord d :: events

/-- Embeds the `recentEvents` mutation of `sendBatchEvents` on the success
path: `unshift` one record per event of the batch, with no trimming. -/
def applyBatch (ds : List EventData) (events : List EventRecord) :
    List EventRecord :=
  ds.foldl (fun acc d => batchRecord d :: acc) events

/-- One call of a send endpoint, with `ok` telling whether the upstream
send succeeded (a failed batch send stores nothing). -/
inductive ConvOp where
  | single (ok : Bool) (d : EventData)
  | batch (ok : Bool) (ds : List EventData)
deriving DecidableEq, Repr

/-- Effect of one send call on the `recentEvents` list. -/
def applyOp (events : List EventRecord) : ConvOp → List EventRecord
  | .single ok d => applySingle ok d events
  | .batch ok ds => if ok then applyBatch ds events else events

/-- The `recentEvents` list after a sequence of send calls, starting from
the empty list the module initialises. -/
def applyOps (ops : List ConvOp) (events : List EventRecord) : List EventRecord :=
  ops.foldl applyOp events

/-- All records a sequence of send calls stores, in insertion order. -/
def chronology (ops : List ConvOp) : List EventRecord :=
  ops.flatMap fun op =>
    match op with
    | .single ok d => [if ok then successRecord d else failedRecord d]
    | .batch ok ds => if ok then ds.map batchRecord else []

/-- Stats object built by `getEventStatus`: total and per-status counts
over the whole list, plus the first `limit` records. -/
structure EventStats where
  total : Nat
  successful : Nat
  failed : Nat
  recent_events : List EventRecord
deriving DecidableEq, Repr

/-- Embeds `getEventStatus` of `conversionsController.js`. -/
def getEventStatus (limit : Nat) (recentEvents : List EventRecord) : EventStats :=
  { total := recentEvents.length
    successful := (recentEvents.filter fun e => e.status == "success").length
    failed := (recentEvents.filter fun e => e.status == "failed").length
    recent_events := recentEvents.take limit }

/-- A sample event datum for closed counterexamples and witnesses. -/
def d0 : EventData :=
  { id := "1700000000000", event_name := some "Lead"
    timestamp := "2025-01-06T16:00:00.000Z", info := "ok" }

/-- C3 as stated is false: one successful batch send of 100 events (the
maximum the validation middleware admits) followed by one failed single
send leaves 101 entries in the event-record list, because neither the
batch path nor the single-send failure path performs any eviction. -/
theorem eventRecord_cap_violated :
    100 < (applyOps [ConvOp.batch true (List.replicate 100 d0),
      ConvOp.single false d0] []).length := by
  decide

theorem applySingle_true_length_le (d : EventData) (es : List EventRecord)
    (h : es.length ≤ 100) : (applySingle true d es).length ≤ 100 := by
  have heq : applySingle true d es =
      if (successRecord d :: es).length > 100 then (successRecord d :: es).dropLast
      else successRecord d :: es := by
    simp [applySingle]
  rw [heq]
  by_cases hl : (successRecord d :: es).length > 100
  · rw [if_pos hl, List.length_dropLast]
    simp only [List.length_cons]
    omega
  · rw [if_neg hl]
    simp only [List.length_cons] at hl ⊢
    omega

/-- C3 amended: only the single-event success path enforces the 100-entry
cap (evicting the oldest entry); the failure path and the batch path append
without eviction.  Hence the bound holds for every sequence made of
successful single-event sends: starting from the empty list, such a
sequence never leaves more than 100 entries. -/
theorem eventRecord_cap_single_success (ops : List ConvOp)
    (h : ∀ op ∈ ops, ∃ d, op = ConvOp.single true d) :
    (applyOps ops []).length ≤ 100 := by
  suffices hgen : ∀ (ops : List ConvOp) (es : List EventRecord),
      (∀ op ∈ ops, ∃ d, op = ConvOp.single true d) → es.length ≤ 100 →
      (applyOps ops es).length ≤ 100 by
    exact hgen ops [] h (by simp)
  intro ops
  induction ops with
  | nil => intro es _ hes; simpa [applyOps] using hes
  | cons op ops ih =>
    intro es hops hes
    rcases hops op (List.mem_cons_self op ops) with ⟨d, rfl⟩
    have hstep : (applyOp es (ConvOp.single true d)).length ≤ 100 :=
      applySingle_true_length_le d es hes
    exact ih (applyOp es (ConvOp.single true d))
      (fun op' hop' => hops op' (List.mem_cons_of_mem _ hop')) hstep

/-- Closed instance discharging the hypothesis of
`eventRecord_cap_single_success` on a two-send sequence. -/
theorem eventRecord_cap_single_success_witness :
    (applyOps [ConvOp.single true d0, ConvOp.single true d0] []).length ≤ 100 := by
  refine eventRecord_cap_single_success _ ?_
  intro op hop
  rcases List.mem_cons.mp hop with rfl | hop'
  · exact ⟨d0, rfl⟩
  · rcases List.mem_cons.mp hop' with rfl | hop''
    · exact ⟨d0, rfl⟩
    · simp at hop''

/-- Records one send call stores, in insertion order. -/
def opRecords : ConvOp → List EventRecord
  | .single ok d => [if ok then successRecord d else failedRecord d]
  | .batch ok ds => if ok then ds.map batchRecord else []

theorem applySingle_true_eq (d : EventData) (es : List EventRecord) :
    applySingle true d es =
      if (successRecord d :: es).length > 100 then (successRecord d :: es).dropLast
      else successRecord d :: es := by
  simp [applySingle]

theorem applyBatch_eq : ∀ (ds : List EventData) (es : List EventRecord),
    applyBatch ds es = (ds.map batchRecord).reverse ++ es
  | [], es => by simp [applyBatch]
  | d :: ds, es => by
    show applyBatch ds (batchRecord d :: es) = _
    rw [applyBatch_eq ds (batchRecord d :: es)]
    simp

theorem take_dropLast_eq_take {α : Type} (L : List α) (k : Nat) :
    ∃ m, (L.take k).dropLast = L.take m := by
  refine ⟨min ((L.take k).length - 1) k, ?_⟩
  rw [List.dropLast_eq_take (L.take k), List.take_take]

theorem applyOp_take (op : ConvOp) (c es : List EventRecord)
    (h : ∃ m, es = (c.reverse).take m) :
    ∃ m, applyOp es op = ((c ++ opRecords op).reverse).take m := by
  rcases h with ⟨m, rfl⟩
  match op with
  | .single true d =>
    have hbase : successRecord d :: (c.reverse).take m =
        ((c ++ opRecords (ConvOp.single true d)).reverse).take (m + 1) := by
      simp [opRecords, List.reverse_append]
    rw [show applyOp ((c.reverse).take m) (ConvOp.single true d) =
      applySingle true d ((c.reverse).take m) from rfl, applySingle_true_eq]
    by_cases hl : (successRecord d :: (c.reverse).take m).length > 100
    · rw [if_pos hl, hbase]
      exact take_dropLast_eq_take _ _
    · rw [if_neg hl, hbase]
      exact ⟨m + 1, rfl⟩
  | .single false d =>
    refine ⟨m + 1, ?_⟩
    simp [applyOp, applySingle, opRecords, List.reverse_append]
  | .batch true ds =>
    refine ⟨(ds.map batchRecord).reverse.length + m, ?_⟩
    rw [show applyOp ((c.reverse).take m) (ConvOp.batch true ds) =
      applyBatch ds ((c.reverse).take m) from by simp [applyOp], applyBatch_eq]
    rw [show opRecords (ConvOp.batch true ds) = ds.map batchRecord from by
      simp [opRecords]]
    rw [List.reverse_append, List.take_append]
  | .batch false ds =>
    refine ⟨m, ?_⟩
    simp [applyOp, opRecords]

theorem applyOps_take (ops : List ConvOp) :
    ∀ (c es : List EventRecord), (∃ m, es = (c.reverse).take m) →
      ∃ m, applyOps ops es = ((c ++ ops.flatMap opRecords).reverse).take m := by
  induction ops with
  | nil => intro c es h; simpa [applyOps] using h
  | cons op ops ih =>
    intro c es h
    rcases ih (c ++ opRecords op) (applyOp es op) (applyOp_take op c es h) with ⟨m, hm⟩
    refine ⟨m, ?_⟩
    rw [show applyOps (op :: ops) es = applyOps ops (applyOp es op) from rfl, hm]
    simp [List.append_assoc]

theorem applyOps_newest_first (ops : List ConvOp) :
    ∃ m, applyOps ops [] = ((chronology ops).reverse).take m := by
  have h := applyOps_take ops [] [] ⟨0, by simp⟩
  have hc : chronology ops = ops.flatMap opRecords := by
    unfold chronology opRecords
    rfl
  simpa [hc] using h

theorem chronology_status (ops : List ConvOp) :
    ∀ r ∈ chronology ops, r.status = "success" ∨ r.status = "failed" := by
  intro r hr
  rw [chronology, List.mem_flatMap] at hr
  rcases hr with ⟨op, _, hrop⟩
  match op with
  | .single true d =>
    simp only [List.mem_singleton, if_pos] at hrop
    rw [show r = successRecord d from by simpa using hrop]
    exact Or.inl rfl
  | .single false d =>
    rw [show r = failedRecord d from by simpa using hrop]
    exact Or.inr rfl
  | .batch true ds =>
    simp only [if_pos, List.mem_map] at hrop
    rcases hrop with ⟨d, _, rfl⟩
    exact Or.inl rfl
  | .batch false ds =>
    simp at hrop
theorem length_filter_status (es : List EventRecord)
    (h : ∀ e ∈ es, e.status = "success" ∨ e.status = "failed") :
    es.length = (es.filter fun e => e.status == "success").length +
      (es.filter fun e => e.status == "failed").length := by
  induction es with
  | nil => rfl
  | cons e es ih =>
    have hes := fun x hx => h x (List.mem_cons_of_mem e hx)
    rcases h e (List.mem_cons_self e es) with hs | hf
    · have h1 : (e.status == "success") = true := by simp [hs]
      have h2 : (e.status == "failed") = false := by simp [hs]
      simp only [List.filter_cons, h1, h2, List.length_cons, ih hes]
      simp
      omega
    · have h1 : (e.status == "success") = false := by simp [hf]
      have h2 : (e.status == "failed") = true := by simp [hf]
      simp only [List.filter_cons, h1, h2, List.length_cons, ih hes]
      simp
      omega

/-- C10: every reachable state of the event-record list (any sequence of
send calls from the empty list) holds only records whose status is
`success` or `failed`, so the status query's total equals the sum of its
successful and failed counts; moreover the stored list, and hence the
record list the query returns, is a prefix of the reversed insertion
chronology, i.e. ordered newest first. -/
theorem eventStatus_invariants (ops : List ConvOp) (limit : Nat) :
    (∀ e ∈ applyOps ops [], e.status = "success" ∨ e.status = "failed") ∧
      (getEventStatus limit (applyOps ops [])).total =
        (getEventStatus limit (applyOps ops [])).successful +
          (getEventStatus limit (applyOps ops [])).failed ∧
      (∃ m, applyOps ops [] = ((chronology ops).reverse).take m) ∧
      ∃ m, (getEventStatus limit (applyOps ops [])).recent_events =
        ((chronology ops).reverse).take m := by
  have hnf := applyOps_newest_first ops
  have hstat : ∀ e ∈ applyOps ops [], e.status = "success" ∨ e.status = "failed" := by
    intro e he
    rcases hnf with ⟨m, hm⟩
    rw [hm] at he
    exact chronology_status ops e (List.mem_reverse.mp (List.take_subset m _ he))
  refine ⟨hstat, length_filter_status _ hstat, hnf, ?_⟩
  rcases hnf with ⟨m, hm⟩
  refine ⟨min limit m, ?_⟩
  show (applyOps ops []).take limit = _
  rw [hm, List.take_take]

/-- Model of `String.prototype.toLowerCase` on the ASCII content the
inputs carry: lower-case the Latin letters. -/
def jsToLower (s : String) : String :=
  String.mk (s.toList.map fun c =>
    if 65 ≤ c.toNat ∧ c.toNat ≤ 90 then Char.ofNat (c.toNat + 32) else c)

/-- Model of `String.prototype.trim`: strip leading and trailing
whitespace. -/
def jsTrim (s : String) : String :=
  String.mk (((s.toList.dropWhile Char.isWhitespace).reverse.dropWhile
    Char.isWhitespace).reverse)

/-- Embeds `hashEmail` of `src/backend/utils/facebookApi.js`: SHA-256 of
the lower-cased then trimmed email; the digest function is abstract. -/
def hashEmail (sha256 : String → String) (email : String) : String :=
  sha256 (jsTrim (jsToLower email))

/-- Embeds `hashPhone`: SHA-256 of the phone with every non-digit
character removed. -/
def hashPhone (sha256 : String → String) (phone : String) : String :=
  sha256 (String.mk (phone.toList.filter Char.isDigit))

/-- User-identifying block of a conversion event payload. -/
structure UserData where
  em : Option String
  ph : Option String
  client_ip_address : Option String
  client_user_agent : Option String
deriving DecidableEq, Repr

/-- Embeds `prepareUserData`: hash `em` and `ph` when present and truthy
(the empty string is falsy in JS and passes through unchanged). -/
def prepareUserData (sha256 : String → String) (userData : UserData) : UserData :=
  { userData with
    em := match userData.em with
      | some s => if s ≠ "" then some (hashEmail sha256 s) else some s
      | none => none
    ph := match userData.ph with
      | some s => if s ≠ "" then some (hashPhone sha256 s) else some s
      | none => none }

/-- Embeds the `user_data` construction of `sendConversionEvent` in
`conversionsController.js`: the request's `user_data` is spread unchanged
and only `client_ip_address` / `client_user_agent` are added; no call to
`prepareUserData`, `hashEmail` or `hashPhone` occurs anywhere on the send
path. -/
def buildEventUserData (user_data : UserData) (ip userAgent : String) : UserData :=
  { user_data with
    client_ip_address := some ip
    client_user_agent := some userAgent }

/-- The C5 failing input: a request whose `user_data` carries a plaintext
email and phone. -/
def udC5 : UserData :=
  { em := some "User@Example.com ", ph := some "+44 7911 123456"
    client_ip_address := none, client_user_agent := none }

/-- C5 fails on the code: the `user_data` block actually sent keeps `em`
and `ph` verbatim in plaintext, while the unused `prepareUserData` helper
is exactly the transformation the claim (and the privacy contract)
describes — lower-case, trim and SHA-256 the email; strip non-digits and
SHA-256 the phone. -/
theorem conversionEvent_sends_plaintext_em_ph (sha256 : String → String)
    (ip ua : String) :
    (buildEventUserData udC5 ip ua).em = some "User@Example.com " ∧
      (buildEventUserData udC5 ip ua).ph = some "+44 7911 123456" ∧
      (prepareUserData sha256 udC5).em = some (sha256 "user@example.com") ∧
      (prepareUserData sha256 udC5).ph = some (sha256 "447911123456") := by
  refine ⟨rfl, rfl, ?_, ?_⟩
  · show some (sha256 (jsTrim (jsToLower "User@Example.com "))) =
      some (sha256 "user@example.com")
    rw [show jsTrim (jsToLower "User@Example.com ") = "user@example.com" from by
      decide]
  · show some (sha256 (String.mk ("+44 7911 123456".toList.filter Char.isDigit))) =
      some (sha256 "447911123456")
    rw [show String.mk ("+44 7911 123456".toList.filter Char.isDigit) =
      "447911123456" from by decide]

/-- Prefix test on character lists: the second list is a prefix of the
first. -/
def listStarts : List Char → List Char → Bool
  | _, [] => true
  | [], _ :: _ => false
  | a :: as, b :: bs => a == b && listStarts as bs

/-- Substring test on character lists: the needle occurs somewhere in the
haystack. -/
def listHasSub (needle : List Char) : List Char → Bool
  | [] => needle.isEmpty
  | c :: cs => listStarts (c :: cs) needle || listHasSub needle cs

/-- Model of case-sensitive `String.prototype.includes`. -/
def jsIncludes (s sub : String) : Bool :=
  listHasSub sub.toList s.toList

/-- An upstream error object; its `message` member may be absent. -/
structure JsError where
  message : Option String
deriving DecidableEq, Repr

/-- A parsed JSON-RPC response as the booking path reads it: `error`
object and `result`, each possibly absent. -/
structure JsResp (α : Type) where
  error : Option JsError
  result : Option α
deriving DecidableEq, Repr

/-- The `book` call's result object; the handler probes `bookingHash`,
`booking_id` and `id` in that order. -/
structure BookResult where
  bookingHash : Option String
  booking_id : Option String
  id : Option String
deriving DecidableEq, Repr

/-- The last error the retry loop recorded: an upstream error object or a
thrown exception's message. -/
inductive LastErr where
  | rpc (e : JsError)
  | exn (message : String)
deriving DecidableEq, Repr

/-- The `lastError.message` rendering used in the final 500 text; an
absent message renders as JavaScript would coerce `undefined`. -/
def errMessage : LastErr → String
  | .rpc e => e.message.getD "undefined"
  | .exn m => m

/-- The `if (bookingResult.error.message && ...includes('not available'))`
test: the message must be present and truthy (non-empty) and contain the
literal substring. -/
def isNotAvailableErr (e : JsError) : Bool :=
  match e.message with
  | some m => !(m == "") && jsIncludes m "not available"
  | none => false

/-- Outcomes of the upstream calls one iteration of the booking retry loop
makes: the availability re-check fetch and the `book` call. -/
structure AttemptEnv where
  reservedCall : Except String (JsResp (List (String × List IntervalGroup)))
  bookCall : Except String (JsResp BookResult)

/-- Counters of the retry loop's observable activity. -/
structure LoopTrace where
  rechecks : Nat
  bookCalls : Nat
  delays : Nat
deriving DecidableEq, Repr

/-- How the retry loop ended: returned the 409 conflict, broke with a
successful booking response, or ran out of attempts. -/
inductive LoopEnd where
  | conflict
  | success (resp : JsResp BookResult)
  | exhausted (bookingResult : Option (JsResp BookResult)) (lastError : Option LastErr)
deriving DecidableEq, Repr

/-- Embeds the `for (attempt = 1; attempt <= maxRetries; attempt++)` loop
of the `/api/book-session` handler.  Each iteration re-fetches the
reserved intervals (a rejection is caught as a transient error), returns
the conflict when the slot is no longer free, issues the `book` call, and
on an error response either returns the conflict (message contains
"not available") or records the error and retries after a delay —
a delay happens only when `attempt < maxRetries`. -/
def runAttempts (dur : Nat) (bookingDate : String) (bookingTime : HM)
    (maxRetries : Nat) (envs : Nat → AttemptEnv) :
    Nat → Nat → Option (JsResp BookResult) → Option LastErr → LoopTrace →
      LoopEnd × LoopTrace
  | 0, _, bres, lerr, tr => (.exhausted bres lerr, tr)
  | remaining + 1, attempt, bres, lerr, tr =>
    match (envs attempt).reservedCall with
    | .error e =>
      let tr1 : LoopTrace := { tr with rechecks := tr.rechecks + 1 }
      let tr2 : LoopTrace :=
        if attempt < maxRetries then { tr1 with delays := tr1.delays + 1 } else tr1
      runAttempts dur bookingDate bookingTime maxRetries envs remaining
        (attempt + 1) bres (some (.exn e)) tr2
    | .ok rresp =>
      let tr1 : LoopTrace := { tr with rechecks := tr.rechecks + 1 }
      let dayReserved := (rresp.result.bind fun m => lookupD m bookingDate).getD []
      if isTimeSlotFree bookingTime dayReserved dur then
        let tr2 : LoopTrace := { tr1 with bookCalls := tr1.bookCalls + 1 }
        match (envs attempt).bookCall with
        | .error e =>
          let tr3 : LoopTrace :=
            if attempt < maxRetries then { tr2 with delays := tr2.delays + 1 } else tr2
          runAttempts dur bookingDate bookingTime maxRetries envs remaining
            (attempt + 1) bres (some (.exn e)) tr3
        | .ok bresp =>
          match bresp.error with
          | some err =>
            if isNotAvailableErr err then (.conflict, tr2)
            else
              let tr3 : LoopTrace :=
                if attempt < maxRetries then { tr2 with delays := tr2.delays + 1 }
                else tr2
              runAttempts dur bookingDate bookingTime maxRetries envs remaining
                (attempt + 1) (some bresp) (some (.rpc err)) tr3
          | none => (.success bresp, tr2)
      else (.conflict, tr1)

/-- The `bookingHash || booking_id || id` probe. -/
def pickBookingId (r : BookResult) : Option String :=
  r.bookingHash.orElse fun _ => r.booking_id.orElse fun _ => r.id

/-- HTTP-level outcome of the booking endpoint. -/
inductive HttpOutcome where
  | ok (booking_id : Option String) (message coach_name : String) (unit_id : Int)
  | err (status : Nat) (error : String)
deriving DecidableEq, Repr

/-- Post-loop mapping of the `/api/book-session` handler: the in-loop 409
returns; a booking response carrying an error surfaces the last error as a
500; otherwise the success JSON is built from the booking result (a `null`
result would raise a TypeError that the outer catch turns into a 500,
rendered here with a fixed model message). -/
def finishBooking (start_time coach : String) (unitId : Int) :
    LoopEnd → HttpOutcome
  | .conflict => .err 409 "This time slot is no longer available"
  | .success bresp =>
    match bresp.result with
    | some r => .ok (pickBookingId r)
        ("Booking confirmed with " ++ coach ++ " for " ++ start_time ++ "!")
        coach unitId
    | none => .err 500 "Failed to process booking: TypeError"
  | .exhausted bres lerr =>
    match bres with
    | some bresp =>
      if bresp.error.isSome then
        .err 500 ("Failed to create booking: " ++
          (match lerr with
            | some le => errMessage le
            | none => "undefined"))
      else
        match bresp.result with
        | some r => .ok (pickBookingId r)
            ("Booking confirmed with " ++ coach ++ " for " ++ start_time ++ "!")
            coach unitId
        | none => .err 500 "Failed to process booking: TypeError"
    | none => .err 500 "Failed to process booking: TypeError"

/-- The request's `unit_id` as received: a number or an array of numbers
(`Array.isArray(unit_id) ? unit_id[0] : unit_id`). -/
inductive JsUnitId where
  | num (n : Int)
  | arr (l : List Int)
deriving DecidableEq, Repr

/-- Body of a `/api/book-session` request; `none` is an absent field. -/
structure BookReq where
  start_time : Option String
  service_id : Option String
  unit_id : Option JsUnitId
  client_name : Option String
  client_email : Option String
  client_phone : Option String
  client_notes : Option String
deriving DecidableEq, Repr

/-- `Array.isArray(unit_id) ? unit_id[0] : unit_id`. -/
def finalUnitId : Option JsUnitId → Option Int
  | none => none
  | some (.num n) => some n
  | some (.arr l) => l.head?

/-- JavaScript falsiness of an optional string: absent or empty. -/
def strFalsy : Option String → Bool
  | none => true
  | some s => s == ""

/-- JavaScript falsiness of the resolved unit id: absent or zero. -/
def unitFalsy : Option Int → Bool
  | none => true
  | some n => n == 0

/-- Parse of an upstream `"HH:MM"` (or `"HH:MM:SS"`) clock string, the
structural counterpart of `split(':').map(Number)` destructured into hours
and minutes; only well-formed inputs occur on this path. -/
def parseHM (s : String) : HM :=
  match (s.splitOn ":").map fun x => x.toNat?.getD 0 with
  | h :: m :: _ => ⟨h, m⟩
  | [h] => ⟨h, 0⟩
  | [] => ⟨0, 0⟩

/-- The coach display name of the booking handler, on the numeric unit id. -/
def coachNameI (n : Int) : String :=
  if n = 4 then "Mason" else "Josh"

/-- Truthiness of `clientResult.result` (a client id). -/
def resultTruthy : Option String → Bool
  | none => false
  | some s => !(s == "")

/-- World of one `/api/book-session` request: outcomes of the admin-token
call, the pre-check reserved-intervals fetch, the `addClient` call, and
the per-iteration calls of the retry loop. -/
structure BookWorld where
  adminToken : Except String (JsResp String)
  preCheckReserved : Except String (JsResp (List (String × List IntervalGroup)))
  addClient : Except String (JsResp String)
  attempts : Nat → AttemptEnv

/-- Result of running the booking handler: the HTTP outcome, the names of
the upstream calls made before the retry loop in order, and the loop's
counters (all zero when the loop was never reached). -/
structure BookRun where
  response : HttpOutcome
  calls : List String
  trace : LoopTrace
deriving DecidableEq, Repr

/-- Embeds the `/api/book-session` handler of `src/server.js`: field
validation first (before any upstream call), then admin token (fatal),
pre-check of the slot (conflict when taken), client creation (fatal), and
the retry loop of up to 3 attempts followed by the post-loop mapping.  The
best-effort post-booking verification fetch only logs inside its own
`try/catch` and cannot affect the response, so it is not modelled. -/
def bookSession (dur : Nat) (req : BookReq) (w : BookWorld) : BookRun :=
  let fUnit := finalUnitId req.unit_id
  if strFalsy req.start_time || strFalsy req.service_id || unitFalsy fUnit ||
      strFalsy req.client_name || strFalsy req.client_email ||
      strFalsy req.client_phone then
    { response := .err 400 "Missing required fields", calls := []
      trace := { rechecks := 0, bookCalls := 0, delays := 0 } }
  else
    let startTime := req.start_time.getD ""
    let parts := startTime.splitOn " "
    let bookingDate := parts.headD ""
    let bookingTime := parseHM ((parts.drop 1).headD "")
    let unitVal := fUnit.getD 0
    let coach := coachNameI unitVal
    match w.adminToken with
    | .error e =>
      { response := .err 500 ("Failed to process booking: " ++ e)
        calls := ["getUserToken"]
        trace := { rechecks := 0, bookCalls := 0, delays := 0 } }
    | .ok tok =>
      if tok.error.isSome then
        { response := .err 500 "Failed to get admin access token"
          calls := ["getUserToken"]
          trace := { rechecks := 0, bookCalls := 0, delays := 0 } }
      else
        match w.preCheckReserved with
        | .error e =>
          { response := .err 500 ("Failed to process booking: " ++ e)
            calls := ["getUserToken", "getReservedTimeIntervals"]
            trace := { rechecks := 0, bookCalls := 0, delays := 0 } }
        | .ok rresp =>
          let reservedIntervals :=
            (rresp.result.bind fun m => lookupD m bookingDate).getD []
          if !(isTimeSlotFree bookingTime reservedIntervals dur) then
            { response := .err 409 "This time slot is no longer available"
              calls := ["getUserToken", "getReservedTimeIntervals"]
              trace := { rechecks := 0, bookCalls := 0, delays := 0 } }
          else
            match w.addClient with
            | .error e =>
              { response := .err 500 ("Failed to create client: " ++ e)
                calls := ["getUserToken", "getReservedTimeIntervals", "addClient"]
                trace := { rechecks := 0, bookCalls := 0, delays := 0 } }
            | .ok cresp =>
              if resultTruthy cresp.result && cresp.error.isNone then
                let run := runAttempts dur bookingDate bookingTime 3 w.attempts 3 1
                  none none { rechecks := 0, bookCalls := 0, delays := 0 }
                { response := finishBooking startTime coach unitVal run.1
                  calls := ["getUserToken", "getReservedTimeIntervals", "addClient"]
                  trace := run.2 }
              else
                { response := .err 500 ("Failed to create client: " ++
                    (match cresp.error with
                      | some e =>
                        match e.message with
                        | some m => if m == "" then "Unknown error" else m
                        | none => "Unknown error"
                      | none => "Unknown error"))
                  calls := ["getUserToken", "getReservedTimeIntervals", "addClient"]
                  trace := { rechecks := 0, bookCalls := 0, delays := 0 } }

/-- C9: a booking request missing any required field is answered with the
400 error before any upstream call: no token acquisition, no reserved
fetch, no client creation and no booking attempt happens. -/
theorem bookSession_missing_field_400 (dur : Nat) (req : BookReq) (w : BookWorld)
    (h : req.start_time = none ∨ req.service_id = none ∨
      finalUnitId req.unit_id = none ∨ req.client_name = none ∨
      req.client_email = none ∨ req.client_phone = none) :
    bookSession dur req w =
      { response := .err 400 "Missing required fields", calls := []
        trace := { rechecks := 0, bookCalls := 0, delays := 0 } } := by
  unfold bookSession
  rcases h with h | h | h | h | h | h <;>
    simp [strFalsy, unitFalsy, h]

/-- A booking request lacking only the client email. -/
def reqC9 : BookReq :=
  { start_time := some "2025-01-06 16:00", service_id := some "2"
    unit_id := some (.num 4), client_name := some "Ada"
    client_email := none, client_phone := some "+447911123456"
    client_notes := none }

/-- A world whose every call would be observable; the validation error must
leave it untouched. -/
def wC9 : BookWorld :=
  { adminToken := .error "unreached"
    preCheckReserved := .error "unreached"
    addClient := .error "unreached"
    attempts := fun _ =>
      { reservedCall := .error "unreached", bookCall := .error "unreached" } }

/-- Closed instance discharging the hypothesis of
`bookSession_missing_field_400`. -/
theorem bookSession_missing_field_400_witness :
    bookSession 55 reqC9 wC9 =
      { response := .err 400 "Missing required fields", calls := []
        trace := { rechecks := 0, bookCalls := 0, delays := 0 } } :=
  bookSession_missing_field_400 55 reqC9 wC9
    (Or.inr (Or.inr (Or.inr (Or.inr (Or.inl rfl)))))

/-- C6: when the retry loop's current attempt re-checks a free slot and
the booking call resolves with an error whose message contains
"not available", the loop terminates at once with the conflict — the
result does not depend on the remaining attempt budget `r`, the delay
counter is untouched (no backoff) and exactly one further booking call was
made; the conflict maps to the 409 response. -/
theorem booking_notAvailable_conflict (dur : Nat) (bookingDate : String)
    (bookingTime : HM) (maxRetries : Nat) (envs : Nat → AttemptEnv)
    (r attempt : Nat) (bres : Option (JsResp BookResult))
    (lerr : Option LastErr) (tr : LoopTrace)
    (rresp : JsResp (List (String × List IntervalGroup)))
    (bresp : JsResp BookResult) (err : JsError)
    (hres : (envs attempt).reservedCall = .ok rresp)
    (hfree : isTimeSlotFree bookingTime
      ((rresp.result.bind fun m => lookupD m bookingDate).getD []) dur = true)
    (hbook : (envs attempt).bookCall = .ok bresp)
    (herr : bresp.error = some err)
    (hna : isNotAvailableErr err = true) :
    runAttempts dur bookingDate bookingTime maxRetries envs (r + 1) attempt
        bres lerr tr =
      (.conflict,
        { rechecks := tr.rechecks + 1, bookCalls := tr.bookCalls + 1
          delays := tr.delays }) ∧
      ∀ (st coach : String) (u : Int),
        finishBooking st coach u .conflict =
          .err 409 "This time slot is no longer available" := by
  constructor
  · simp only [runAttempts, hres, hfree, hbook, herr, hna, if_true]
  · intro st coach u
    rfl

/-- Attempt outcomes of the C6 witness: the re-check sees a free slot and
the booking call reports the upstream "not available" error. -/
def envC6 : AttemptEnv :=
  { reservedCall := .ok { error := none, result := some [] }
    bookCall := .ok
      { error := some { message := some "Selected unit is not available" }
        result := none } }

/-- Closed instance discharging the hypotheses of
`booking_notAvailable_conflict` at attempt 1 of a 3-attempt budget. -/
theorem booking_notAvailable_conflict_witness :
    runAttempts 55 "2025-01-06" ⟨16, 0⟩ 3 (fun _ => envC6) 3 1 none none
        { rechecks := 0, bookCalls := 0, delays := 0 } =
      (.conflict, { rechecks := 1, bookCalls := 1, delays := 0 }) ∧
      ∀ (st coach : String) (u : Int),
        finishBooking st coach u .conflict =
          .err 409 "This time slot is no longer available" :=
  booking_notAvailable_conflict 55 "2025-01-06" ⟨16, 0⟩ 3 (fun _ => envC6) 2 1
    none none { rechecks := 0, bookCalls := 0, delays := 0 }
    { error := none, result := some [] }
    { error := some { message := some "Selected unit is not available" }
      result := none }
    { message := some "Selected unit is not available" }
    rfl (by decide) rfl rfl (by decide)

/-- The availability re-check of one attempt resolves and finds the slot
free. -/
def recheckFree (dur : Nat) (bookingDate : String) (bookingTime : HM)
    (env : AttemptEnv) : Prop :=
  ∃ rresp, env.reservedCall = .ok rresp ∧
    isTimeSlotFree bookingTime
      ((rresp.result.bind fun m => lookupD m bookingDate).getD []) dur = true

/-- The booking call of one attempt resolves with a transient error: an
error object whose message does not meet the "not available" test. -/
def bookTransientErr (env : AttemptEnv) (err : JsError) : Prop :=
  ∃ bresp, env.bookCall = .ok bresp ∧ bresp.error = some err ∧
    isNotAvailableErr err = false

/-- C7: with the availability re-check passing before every attempt, a
transient booking error on attempts 1 and 2 followed by a successful
booking on attempt 3 gives the success outcome with exactly 3 re-checks,
3 booking calls and 2 backoff delays, and the success response is built
from the booking result; and when instead all 3 attempts fail with
transient errors, the cap is exhausted after the same 3 calls and 2 delays
and the last upstream error surfaces as the 500 failure. -/
theorem booking_retry_transient_then_success (dur : Nat) (bookingDate : String)
    (bookingTime : HM) (envs : Nat → AttemptEnv) (e1 e2 : JsError)
    (bresp3 : JsResp BookResult) (r3 : BookResult)
    (h1f : recheckFree dur bookingDate bookingTime (envs 1))
    (h2f : recheckFree dur bookingDate bookingTime (envs 2))
    (h3f : recheckFree dur bookingDate bookingTime (envs 3))
    (h1e : bookTransientErr (envs 1) e1)
    (h2e : bookTransientErr (envs 2) e2)
    (h3s : (envs 3).bookCall = .ok bresp3) (h3err : bresp3.error = none)
    (h3res : bresp3.result = some r3) :
    (runAttempts dur bookingDate bookingTime 3 envs 3 1 none none
        { rechecks := 0, bookCalls := 0, delays := 0 } =
      (.success bresp3, { rechecks := 3, bookCalls := 3, delays := 2 }) ∧
      ∀ (st coach : String) (u : Int),
        finishBooking st coach u (.success bresp3) =
          .ok (pickBookingId r3)
            ("Booking confirmed with " ++ coach ++ " for " ++ st ++ "!")
            coach u) ∧
      ∀ (envs' : Nat → AttemptEnv) (f1 f2 f3 : JsError),
        recheckFree dur bookingDate bookingTime (envs' 1) →
        recheckFree dur bookingDate bookingTime (envs' 2) →
        recheckFree dur bookingDate bookingTime (envs' 3) →
        bookTransientErr (envs' 1) f1 →
        bookTransientErr (envs' 2) f2 →
        bookTransientErr (envs' 3) f3 →
        ∃ bresp', bresp'.error = some f3 ∧
          runAttempts dur bookingDate bookingTime 3 envs' 3 1 none none
              { rechecks := 0, bookCalls := 0, delays := 0 } =
            (.exhausted (some bresp') (some (.rpc f3)),
              { rechecks := 3, bookCalls := 3, delays := 2 }) ∧
          ∀ (st coach : String) (u : Int),
            finishBooking st coach u
                (.exhausted (some bresp') (some (.rpc f3))) =
              .err 500 ("Failed to create booking: " ++ errMessage (.rpc f3)) := by
  constructor
  · rcases h1f with ⟨rr1, hrr1, hfree1⟩
    rcases h2f with ⟨rr2, hrr2, hfree2⟩
    rcases h3f with ⟨rr3, hrr3, hfree3⟩
    rcases h1e with ⟨b1, hb1, hb1e, hb1na⟩
    rcases h2e with ⟨b2, hb2, hb2e, hb2na⟩
    constructor
    · simp only [runAttempts, hrr1, hfree1, hb1, hb1e, hb1na, if_true,
        Bool.false_eq_true, if_false]
      norm_num
      simp only [runAttempts, hrr2, hfree2, hb2, hb2e, hb2na, if_true,
        Bool.false_eq_true, if_false]
      simp only [runAttempts, hrr3, hfree3, h3s, h3err, if_true]
    · intro st coach u
      simp only [finishBooking, h3res]
  · intro envs' f1 f2 f3 g1f g2f g3f g1e g2e g3e
    rcases g1f with ⟨rr1, hrr1, hfree1⟩
    rcases g2f with ⟨rr2, hrr2, hfree2⟩
    rcases g3f with ⟨rr3, hrr3, hfree3⟩
    rcases g1e with ⟨b1, hb1, hb1e, hb1na⟩
    rcases g2e with ⟨b2, hb2, hb2e, hb2na⟩
    rcases g3e with ⟨b3, hb3, hb3e, hb3na⟩
    refine ⟨b3, hb3e, ?_, ?_⟩
    · simp only [runAttempts, hrr1, hfree1, hb1, hb1e, hb1na, if_true,
        Bool.false_eq_true, if_false]
      norm_num
      simp only [runAttempts, hrr2, hfree2, hb2, hb2e, hb2na, if_true,
        Bool.false_eq_true, if_false]
      simp only [runAttempts, hrr3, hfree3, hb3, hb3e, hb3na, if_true,
        Bool.false_eq_true, if_false]
    · intro st coach u
      simp only [finishBooking, hb3e, Option.isSome_some, if_true]

/-- Booking result of the C7 witness scenario. -/
def bookResC7 : BookResult :=
  { bookingHash := some "abc123", booking_id := none, id := none }

/-- Attempt with a free re-check and a transient upstream error. -/
def envTransientC7 : AttemptEnv :=
  { reservedCall := .ok { error := none, result := some [] }
    bookCall := .ok
      { error := some { message := some "Server error" }, result := none } }

/-- Attempt with a free re-check and a successful booking. -/
def envSuccessC7 : AttemptEnv :=
  { reservedCall := .ok { error := none, result := some [] }
    bookCall := .ok { error := none, result := some bookResC7 } }

/-- The C7 witness world: transient errors on attempts 1 and 2, success on
attempt 3. -/
def envsC7 : Nat → AttemptEnv
  | 3 => envSuccessC7
  | _ => envTransientC7

/-- Closed instance discharging the hypotheses of
`booking_retry_transient_then_success`. -/
theorem booking_retry_transient_then_success_witness :
    (runAttempts 55 "2025-01-06" ⟨16, 0⟩ 3 envsC7 3 1 none none
        { rechecks := 0, bookCalls := 0, delays := 0 } =
      (.success { error := none, result := some bookResC7 },
        { rechecks := 3, bookCalls := 3, delays := 2 }) ∧
      ∀ (st coach : String) (u : Int),
        finishBooking st coach u
            (.success { error := none, result := some bookResC7 }) =
          .ok (pickBookingId bookResC7)
            ("Booking confirmed with " ++ coach ++ " for " ++ st ++ "!")
            coach u) ∧
      ∀ (envs' : Nat → AttemptEnv) (f1 f2 f3 : JsError),
        recheckFree 55 "2025-01-06" ⟨16, 0⟩ (envs' 1) →
        recheckFree 55 "2025-01-06" ⟨16, 0⟩ (envs' 2) →
        recheckFree 55 "2025-01-06" ⟨16, 0⟩ (envs' 3) →
        bookTransientErr (envs' 1) f1 →
        bookTransientErr (envs' 2) f2 →
        bookTransientErr (envs' 3) f3 →
        ∃ bresp', bresp'.error = some f3 ∧
          runAttempts 55 "2025-01-06" ⟨16, 0⟩ 3 envs' 3 1 none none
              { rechecks := 0, bookCalls := 0, delays := 0 } =
            (.exhausted (some bresp') (some (.rpc f3)),
              { rechecks := 3, bookCalls := 3, delays := 2 }) ∧
          ∀ (st coach : String) (u : Int),
            finishBooking st coach u
                (.exhausted (some bresp') (some (.rpc f3))) =
              .err 500 ("Failed to create booking: " ++ errMessage (.rpc f3)) :=
  booking_retry_transient_then_success 55 "2025-01-06" ⟨16, 0⟩ envsC7
    { message := some "Server error" } { message := some "Server error" }
    { error := none, result := some bookResC7 } bookResC7
    ⟨{ error := none, result := some [] }, rfl, by decide⟩
    ⟨{ error := none, result := some [] }, rfl, by decide⟩
    ⟨{ error := none, result := some [] }, rfl, by decide⟩
    ⟨{ error := some { message := some "Server error" }, result := none },
      rfl, rfl, by decide⟩
    ⟨{ error := some { message := some "Server error" }, result := none },
      rfl, rfl, by decide⟩
    rfl rfl rfl
